import Mathlib

/-!
Shallow embedding of the finance tracker backend (src/app.py) and proofs
about the claims of its specification.

Monetary values in the source are Python floats.  They are modelled here by
the type PF below: a rational number (an idealisation of a finite float,
without rounding), or one of the special values nan, inf, ninf that Python
float arithmetic produces and propagates.  Arithmetic, comparison and max
follow the IEEE rules that CPython implements: nan propagates through
arithmetic and makes every comparison false; inf + ninf = nan; the two-place
max of the source, max(0, x), returns x exactly when x > 0.
-/

inductive PF where
  | fin : ℚ → PF
  | nan : PF
  | inf : PF
  | ninf : PF
deriving DecidableEq, Repr

/-- Python float addition on the model: nan propagates, inf + ninf is nan. -/
def pyAdd : PF → PF → PF
  | .nan, _ => .nan
  | _, .nan => .nan
  | .fin a, .fin b => .fin (a + b)
  | .inf, .ninf => .nan
  | .ninf, .inf => .nan
  | .inf, _ => .inf
  | _, .inf => .inf
  | .ninf, _ => .ninf
  | _, .ninf => .ninf

/-- Python float negation. -/
def pyNeg : PF → PF
  | .fin a => .fin (-a)
  | .nan => .nan
  | .inf => .ninf
  | .ninf => .inf

/-- Python float subtraction: a - b behaves as a + (-b), also on nan and inf. -/
def pySub (a b : PF) : PF := pyAdd a (pyNeg b)

/-- Python float strict comparison: any comparison with nan is false. -/
def pyLt : PF → PF → Bool
  | .nan, _ => false
  | _, .nan => false
  | .fin a, .fin b => decide (a < b)
  | .fin _, .inf => true
  | .fin _, .ninf => false
  | .inf, _ => false
  | .ninf, .ninf => false
  | .ninf, _ => true

/-- Python float non-strict comparison: any comparison with nan is false. -/
def pyLe : PF → PF → Bool
  | .nan, _ => false
  | _, .nan => false
  | .ninf, _ => true
  | _, .inf => true
  | .inf, _ => false
  | .fin a, .fin b => decide (a ≤ b)
  | .fin _, .ninf => false

/-- Python comparison x >= y. -/
def pyGe (a b : PF) : Bool := pyLe b a

/-- CPython max(a, b): returns b when b > a, otherwise a.
In particular max(0, nan) = 0. -/
def pyMax (a b : PF) : PF := if pyLt a b then b else a

/-- Python sum() of a list of floats: left fold of addition starting at 0. -/
def pySum (l : List PF) : PF := l.foldl pyAdd (PF.fin 0)

/-- A value is an ordinary (finite) number. -/
def PF.isFinite : PF → Bool
  | .fin _ => true
  | _ => false

/-!
Calendar utilities (section 4 of src/app.py).

Dates are triples of year, month, day.  The weekday is computed with the
standard civil-calendar day-numbering formula (days counted from the first
of March of year 0 of the proleptic Gregorian calendar, which CPython
datetime also uses); day number 0 falls on a Wednesday, which in the
Monday=0 convention of date.weekday() is weekday 2.
-/

structure Date where
  year : Nat
  month : Nat
  day : Nat
deriving DecidableEq, Repr

/-- Gregorian leap year rule, as in calendar.monthrange. -/
def isLeap (y : Nat) : Bool := (y % 4 == 0 && y % 100 != 0) || y % 400 == 0

/-- Number of days of a month, as returned by calendar.monthrange(y, m)[1].
The source never calls it with a month outside 1..12 (months come from
datetime.now()); out-of-range months, on which monthrange would raise,
are mapped to 0 so that the backward scan below immediately returns none,
matching the try/except around get_salary_date in the source. -/
def daysInMonth (y m : Nat) : Nat :=
  if m = 1 then 31 else if m = 2 then (if isLeap y then 29 else 28)
  else if m = 3 then 31 else if m = 4 then 30 else if m = 5 then 31
  else if m = 6 then 30 else if m = 7 then 31 else if m = 8 then 31
  else if m = 9 then 30 else if m = 10 then 31 else if m = 11 then 30
  else if m = 12 then 31 else 0

/-- Day count of the civil calendar (days since 0000-03-01). -/
def dayNumber (y m d : Nat) : Nat :=
  let y1 := if m ≤ 2 then y - 1 else y
  let era := y1 / 400
  let yoe := y1 % 400
  let mp := if 2 < m then m - 3 else m + 9
  let doy := (153 * mp + 2) / 5 + (d - 1)
  let doe := yoe * 365 + yoe / 4 - yoe / 100 + doy
  era * 146097 + doe

/-- date.weekday() of CPython: Monday is 0, Sunday is 6. -/
def weekday (y m d : Nat) : Nat := (dayNumber y m d + 2) % 7

/-- is_working_day of the source: Monday (0) through Friday (4). -/
def is_working_day (y m d : Nat) : Bool := weekday y m d < 5

/-- The backward scan of get_last_working_day: walks from day downwards,
counting working days; answers at the day where the count reaches offset,
and gives none when the scan leaves the month (day reaches 0), exactly as
the while loop of the source stops when day_to_check.month changes. -/
def scan_aux (y m offset : Nat) : Nat → Nat → Option Nat
  | 0, _ => none
  | d + 1, count =>
    if is_working_day y m (d + 1) then
      if count + 1 = offset then some (d + 1)
      else scan_aux y m offset d (count + 1)
    else scan_aux y m offset d count

/-- get_last_working_day of the source: the offset-th last working day of
the month, as a day of that month, scanning backward from the last
calendar day. -/
def get_last_working_day (y m : Nat) (offset : Nat) : Option Nat :=
  scan_aux y m offset (daysInMonth y m) 0

/-- get_salary_date of the source: the 3rd last working day of the month. -/
def get_salary_date (y m : Nat) : Option Nat := get_last_working_day y m 3

/-- Zero-pad a numeral string to two digits. -/
def pad2 (n : Nat) : String := if n < 10 then "0" ++ toString n else toString n

/-- Zero-pad a numeral string to four digits. -/
def pad4 (n : Nat) : String :=
  if n < 10 then "000" ++ toString n
  else if n < 100 then "00" ++ toString n
  else if n < 1000 then "0" ++ toString n
  else toString n

/-- strftime of a date to the YYYY-MM month key used by the metadata
guards. -/
def monthKey (y m : Nat) : String := pad4 y ++ "-" ++ pad2 m

/-- Ascending list of the working days among days 1..d of a month. -/
def working_days_upto (y m d : Nat) : List Nat :=
  ((List.range d).map (fun i => i + 1)).filter (fun x => is_working_day y m x)

/-- Ascending list of all working days of a month. -/
def working_days (y m : Nat) : List Nat := working_days_upto y m (daysInMonth y m)

/-!
Data model (section 3 of the spec, get_default_data of the source).

The source keeps every record as a dict.  All records of all categories
share the same shape here: id, name, amount, and the two fields that only
some categories use, monthlyPayment (read in the source with
.get(..., 0), so an absent field is the same as 0) and date (read with
.get(..., default), modelled as an Option).
-/

structure Item where
  id : String
  name : String
  amount : PF
  monthlyPayment : PF := PF.fin 0
  date : Option String := none
deriving DecidableEq, Repr

/-- The metadata guards of the document.  The source creates them with
setdefault when absent, so they are always present here. -/
structure Metadata where
  last_balance_update_month : Option String
  last_debt_payment_month : Option String
deriving DecidableEq, Repr

/-- The whole persisted ledger document. -/
structure Doc where
  income : List Item
  one_time_inflow : List Item
  expenses : List Item
  investments : List Item
  debts : List Item
  purchases : List Item
  metadata : Metadata
deriving DecidableEq, Repr

/-- The list-valued categories of the document.  The source dispatches on
the request category string and rejects anything that is not one of these
lists (the metadata dict is not a list); the embedding works with the
already-validated category. -/
inductive Category where
  | income | one_time_inflow | expenses | investments | debts | purchases
deriving DecidableEq, Repr

def getCat (doc : Doc) : Category → List Item
  | .income => doc.income
  | .one_time_inflow => doc.one_time_inflow
  | .expenses => doc.expenses
  | .investments => doc.investments
  | .debts => doc.debts
  | .purchases => doc.purchases

def setCat (doc : Doc) : Category → List Item → Doc
  | .income, l => { doc with income := l }
  | .one_time_inflow, l => { doc with one_time_inflow := l }
  | .expenses, l => { doc with expenses := l }
  | .investments, l => { doc with investments := l }
  | .debts, l => { doc with debts := l }
  | .purchases, l => { doc with purchases := l }

/-- Replace the first item of a list with a matching id by its image under
f.  The source locates such an item by index (find_balance_index) or by a
for loop with break, and mutates it in place; both touch exactly the first
match. -/
def updateFirstItem (iid : String) (f : Item → Item) : List Item → List Item
  | [] => []
  | it :: tl =>
    if it.id == iid then f it :: tl
    else it :: updateFirstItem iid f tl

/-- The amount of the first income item with id inc2, when present: the
current account balance the source reads and mutates. -/
def balanceAmount (doc : Doc) : Option PF :=
  (doc.income.find? (fun it => it.id == "inc2")).map (fun it => it.amount)

/-!
JSON request values and the CPython float() builtin.

Amounts arrive in requests as arbitrary JSON values: numbers (Python json
also produces the non-finite floats from the literals NaN and Infinity),
strings, or null.  float() on a string parses an optional sign, the
keywords nan, inf, infinity (case-insensitively) and decimal literals, and
raises ValueError otherwise; float(None) raises TypeError.  The decimal
parser below covers plain and dotted digit strings; exponent and
underscore forms of CPython are omitted (no claim exercises them).
-/

inductive Val where
  | pf : PF → Val
  | str : String → Val
  | vnull : Val
deriving DecidableEq, Repr

inductive FErr where
  | valueError | typeError
deriving DecidableEq, Repr

/-- Numeric value of a list of decimal digit codes. -/
def digitsVal (l : List Nat) : Nat := l.foldl (fun acc c => acc * 10 + (c - 48)) 0

def isDigitCode (c : Nat) : Bool := 48 ≤ c && c ≤ 57

/-- Unsigned decimal float literal: digits, digits.digits, digits. or
.digits. -/
def parse_decimal (l : List Nat) : Option ℚ :=
  match l.splitOn 46 with
  | [a] => if a ≠ [] ∧ a.all isDigitCode then some (digitsVal a) else none
  | [a, b] =>
    if (a ≠ [] ∨ b ≠ []) ∧ a.all isDigitCode ∧ b.all isDigitCode then
      some ((digitsVal a : ℚ) + (digitsVal b : ℚ) / (10 ^ b.length : ℚ))
    else none
  | _ => none

/-- ASCII lower-casing on character codes. -/
def lowerCode (c : Nat) : Nat := if 65 ≤ c ∧ c ≤ 90 then c + 32 else c

/-- The character codes of a string, lower-cased, with surrounding ASCII
whitespace stripped, as float() does before parsing. -/
def floatChars (s : String) : List Nat :=
  (((s.toList.map Char.toNat).dropWhile (fun c => c = 32)).reverse.dropWhile
    (fun c => c = 32)).reverse.map lowerCode

/-- CPython float() on a string: some value, or none for ValueError. -/
def pyfloat_of_string (s : String) : Option PF :=
  let cs := floatChars s
  let sign : Bool × List Nat :=
    match cs with
    | c :: tl => if c = 45 then (true, tl) else if c = 43 then (false, tl) else (false, cs)
    | [] => (false, [])
  let neg := sign.1
  let rest := sign.2
  if rest = [110, 97, 110] then some PF.nan
  else if rest = [105, 110, 102] ∨ rest = [105, 110, 102, 105, 110, 105, 116, 121] then
    some (if neg then PF.ninf else PF.inf)
  else
    match parse_decimal rest with
    | some q => some (if neg then PF.fin (-q) else PF.fin q)
    | none => none

/-- CPython float() on a request value: float of a float is itself, a
string is parsed (ValueError on failure), None raises TypeError. -/
def float_of_val : Val → Except FErr PF
  | .pf x => .ok x
  | .str s =>
    match pyfloat_of_string s with
    | some x => .ok x
    | none => .error .valueError
  | .vnull => .error .typeError

/-!
Balance management helpers and the dynamic update logic
(sections "HELPER FUNCTIONS" and 5 of src/app.py).
-/

/-- update_balance of the source: adjusts the Current Account Balance item
(the first income item with id inc2, located by find_balance_index) by a
net change amount.  A missing balance item is reported and ignored; an
inflow change is added, a purchases change is subtracted; any other
category leaves the balance untouched (the source only calls the function
with the two instant categories). -/
def update_balance (doc : Doc) (cat : Category) (amount_change : PF) : Doc :=
  match doc.income.find? (fun it => it.id == "inc2") with
  | none => doc
  | some _ =>
    match cat with
    | .one_time_inflow =>
      { doc with income :=
          updateFirstItem "inc2" (fun it => { it with amount := pyAdd it.amount amount_change }) doc.income }
    | .purchases =>
      { doc with income :=
          updateFirstItem "inc2" (fun it => { it with amount := pySub it.amount amount_change }) doc.income }
    | _ => doc

/-- The automatic debt reduction of check_and_update_balance (step 1 of the
source), at the wall-clock date t.  The end-of-month test of the source
computes the last calendar day of the month by stepping to the first of
the next month and back one day; that day is daysInMonth of the current
month.  When the date is that day and the guard differs from the current
month key, and the balance item exists: the balance is debited by the sum
of all monthly payments, every debt is clamped to max(0, amount -
monthlyPayment), and the guard is set.  The returned flag is data_modified
of the source restricted to this step. -/
def debt_phase (t : Date) (doc : Doc) : Doc × Bool :=
  let key := monthKey t.year t.month
  if t.day = daysInMonth t.year t.month ∧ doc.metadata.last_debt_payment_month ≠ some key then
    match doc.income.find? (fun it => it.id == "inc2") with
    | some _ =>
      let total_payment := pySum (doc.debts.map (fun dbt => dbt.monthlyPayment))
      ({ doc with
          income := updateFirstItem "inc2"
            (fun it => { it with amount := pySub it.amount total_payment }) doc.income,
          debts := doc.debts.map
            (fun dbt => { dbt with amount := pyMax (PF.fin 0) (pySub dbt.amount dbt.monthlyPayment) }),
          metadata := { doc.metadata with last_debt_payment_month := some key } }, true)
    | none => (doc, false)
  else (doc, false)

/-- The salary credit of check_and_update_balance (step 2 of the source).
The salary date is a day of the current month, so the date comparison
current_date >= salary_date of the source is a comparison of days.  When
the salary date exists, has been reached, and the guard differs from the
current month key, and both the salary item (first income item with id
inc1) and the balance item exist: the balance is credited with the salary
amount and the guard is set. -/
def salary_phase (t : Date) (doc : Doc) : Doc × Bool :=
  let key := monthKey t.year t.month
  match get_salary_date t.year t.month with
  | none => (doc, false)
  | some sd =>
    if sd ≤ t.day ∧ doc.metadata.last_balance_update_month ≠ some key then
      match doc.income.find? (fun it => it.id == "inc1"),
            doc.income.find? (fun it => it.id == "inc2") with
      | some si, some _ =>
        ({ doc with
            income := updateFirstItem "inc2"
              (fun it => { it with amount := pyAdd it.amount si.amount }) doc.income,
            metadata := { doc.metadata with last_balance_update_month := some key } }, true)
      | _, _ => (doc, false)
    else (doc, false)

/-- check_and_update_balance of the source: the debt step runs first, the
salary step second, and the document is saved when either step modified
it (the returned flag).  The source locates the salary and balance items
once, before both steps; the debt step only changes the amount of the
first inc2 item, so locating them again between the steps finds the same
items, with the salary amount unchanged — the sequential composition
below is therefore an exact translation. -/
def check_and_update_balance (t : Date) (doc : Doc) : Doc × Bool :=
  let r1 := debt_phase t doc
  let r2 := salary_phase t r1.1
  (r2.1, r1.2 || r2.2)

/-!
The totals calculator (section 6 of src/app.py) and the date parsing it
uses for the current-month filters.
-/

/-- datetime.strptime(s, the dashed year-month-day format): three dashed
decimal components, a year of at most four digits, a month 1..12 and a
day valid for that month; none models the ValueError the totals loops
catch.  (CPython also accepts some whitespace variations that no stored
date uses; they are omitted.) -/
def parse_date (s : String) : Option (Nat × Nat × Nat) :=
  match s.splitOn "-" with
  | [ys, ms, ds] =>
    match ys.toNat?, ms.toNat?, ds.toNat? with
    | some y, some m, some d =>
      if ys.length ≤ 4 ∧ 1 ≤ m ∧ m ≤ 12 ∧ 1 ≤ d ∧ d ≤ daysInMonth y m then
        some (y, m, d)
      else none
    | _, _, _ => none
  | _ => none

/-- One pass of the purchases / one-time-inflow loop of calculate_totals:
accumulates (all-time total, current-month total).  The amount, already a
float in the document, is added to the all-time total first; a date that
fails to parse then aborts the iteration (the continue of the source), so
such items count for the all-time total but never for the current month.
A missing date field reads as the sentinel far-past date. -/
def instant_totals (t : Date) (l : List Item) : PF × PF :=
  l.foldl
    (fun acc it =>
      let allT := pyAdd acc.1 it.amount
      match parse_date (it.date.getD "1900-01-01") with
      | some (y, m, _) =>
        if y = t.year ∧ m = t.month then (allT, pyAdd acc.2 it.amount) else (allT, acc.2)
      | none => (allT, acc.2))
    (PF.fin 0, PF.fin 0)

/-- The dictionary returned by calculate_totals. -/
structure Totals where
  currentBalance : PF
  totalIncomeRate : PF
  totalExpenses : PF
  totalInvestments : PF
  totalDebt : PF
  totalDebtPayment : PF
  currentMonthPurchasesTotal : PF
  totalAllTimePurchases : PF
  currentMonthInflowTotal : PF
  totalAllTimeInflow : PF
  totalInflowForStats : PF
  totalOutflow : PF
  remainingBalance : PF
  isPositive : Bool
deriving DecidableEq, Repr

/-- calculate_totals of the source: a pure projection of the document and
the wall-clock date, recomputed on every read and never stored. -/
def calculate_totals (t : Date) (doc : Doc) : Totals :=
  let purch := instant_totals t doc.purchases
  let infl := instant_totals t doc.one_time_inflow
  let current_balance :=
    ((doc.income.find? (fun it => it.id == "inc2")).map (fun it => it.amount)).getD (PF.fin 0)
  let total_income_rate :=
    pySum ((doc.income.filter (fun it => !(it.id == "inc2"))).map (fun it => it.amount))
  let total_expenses := pySum (doc.expenses.map (fun it => it.amount))
  let total_investments := pySum (doc.investments.map (fun it => it.amount))
  let total_debt_payment := pySum (doc.debts.map (fun it => it.monthlyPayment))
  let total_debt := pySum (doc.debts.map (fun it => it.amount))
  let monthly_recurring_outflow := pyAdd (pyAdd total_expenses total_investments) total_debt_payment
  let total_outflow_for_stats := pyAdd monthly_recurring_outflow purch.2
  let total_inflow_for_stats := pyAdd total_income_rate infl.2
  let remaining_after_recurring := pySub total_income_rate monthly_recurring_outflow
  { currentBalance := current_balance
    totalIncomeRate := total_income_rate
    totalExpenses := total_expenses
    totalInvestments := total_investments
    totalDebt := total_debt
    totalDebtPayment := total_debt_payment
    currentMonthPurchasesTotal := purch.2
    totalAllTimePurchases := purch.1
    currentMonthInflowTotal := infl.2
    totalAllTimeInflow := infl.1
    totalInflowForStats := total_inflow_for_stats
    totalOutflow := total_outflow_for_stats
    remainingBalance := remaining_after_recurring
    isPositive := pyGe remaining_after_recurring (PF.fin 0) }

/-!
The category CRUD gateway (section 7 of src/app.py).

All three handlers answer with jsonify of a dict whose success field the
source sets to the constant True, together with fresh totals; the totals
are a pure function of the resulting document (calculate_totals above),
so the result type below records the document, whether save_data was
called (data_modified), and the success field of the response.  An
unhandled exception (HTTP 500) is modelled as none where it can occur.
-/

structure ApiResult where
  doc : Doc
  modified : Bool
  success : Bool
deriving DecidableEq, Repr

/-- The fields a client can set through the update endpoint.  The source
assigns item[field] = value verbatim for non-numeric fields; the client
always sends strings there (name and date), which is what the embedding
represents. -/
inductive UField where
  | amount | monthlyPayment | name | date
deriving DecidableEq, Repr

/-- String content of a request value, for the verbatim (non-numeric)
field assignments. -/
def valAsString : Val → String
  | .str s => s
  | _ => ""

/-- The request body of the add endpoint.  The source generates a random
id when the item has none; the embedding takes the id as given.  An absent
monthlyPayment behaves as 0 and an absent date as none, as in the
document model. -/
structure RawItem where
  id : String
  name : String
  amount : Val
  monthlyPayment : PF := PF.fin 0
  date : Option String := none
deriving DecidableEq, Repr

/-- The amount coercion of add_item: float(amount), with TypeError and
ValueError both caught and replaced by 0.0. -/
def coerce_amount (v : Val) : PF :=
  match float_of_val v with
  | .ok x => x
  | .error _ => PF.fin 0

/-- The item stored by add_item: the request item with its amount coerced
to a float. -/
def stored_add_item (raw : RawItem) : Item :=
  { id := raw.id, name := raw.name, amount := coerce_amount raw.amount,
    monthlyPayment := raw.monthlyPayment, date := raw.date }

/-- add_item of the source, on a valid category: coerces the amount,
appends the item, and for the two instant categories immediately adjusts
the balance by the new amount; always saves and answers success. -/
def add_item (doc : Doc) (cat : Category) (raw : RawItem) : ApiResult :=
  let a := coerce_amount raw.amount
  let doc1 := setCat doc cat (getCat doc cat ++ [stored_add_item raw])
  let doc2 :=
    if cat = Category.one_time_inflow ∨ cat = Category.purchases then
      update_balance doc1 cat a
    else doc1
  { doc := doc2, modified := true, success := true }

/-- update_item of the source, on a valid category: the for loop processes
the first item with the requested id and breaks.  For the numeric fields,
float(value) is attempted: on success the field is set and, when the
field is amount on an instant category, the balance absorbs the
difference new - old (old read before the mutation); a ValueError is
caught and nothing changes (data_modified stays false, so no save and
success is still reported); a TypeError (value null) is not caught — the
request fails with HTTP 500 and no state change, modelled as none.
Other fields are assigned verbatim.  An id with no match falls through
with no change and success true. -/
def update_item (doc : Doc) (cat : Category) (iid : String) (field : UField) (value : Val) :
    Option ApiResult :=
  match (getCat doc cat).find? (fun it => it.id == iid) with
  | none => some { doc := doc, modified := false, success := true }
  | some item =>
    match field with
    | .amount =>
      match float_of_val value with
      | .ok x =>
        let doc1 := setCat doc cat
          (updateFirstItem iid (fun it => { it with amount := x }) (getCat doc cat))
        let doc2 :=
          if cat = Category.one_time_inflow ∨ cat = Category.purchases then
            update_balance doc1 cat (pySub x item.amount)
          else doc1
        some { doc := doc2, modified := true, success := true }
      | .error .valueError => some { doc := doc, modified := false, success := true }
      | .error .typeError => none
    | .monthlyPayment =>
      match float_of_val value with
      | .ok x =>
        some { doc := setCat doc cat
                 (updateFirstItem iid (fun it => { it with monthlyPayment := x }) (getCat doc cat)),
               modified := true, success := true }
      | .error .valueError => some { doc := doc, modified := false, success := true }
      | .error .typeError => none
    | .name =>
      some { doc := setCat doc cat
               (updateFirstItem iid (fun it => { it with name := valAsString value }) (getCat doc cat)),
             modified := true, success := true }
    | .date =>
      some { doc := setCat doc cat
               (updateFirstItem iid (fun it => { it with date := some (valAsString value) }) (getCat doc cat)),
             modified := true, success := true }

/-- delete_item of the source, on a valid category: the first item with
the requested id is remembered, every item with that id is filtered out
(the source rebuilds the list unconditionally), and when one was found,
an instant category undoes its balance contribution by applying
update_balance with the negated amount (float of a stored amount cannot
raise).  Success is always reported. -/
def delete_item (doc : Doc) (cat : Category) (iid : String) : ApiResult :=
  let deleted := (getCat doc cat).find? (fun it => it.id == iid)
  let doc1 := setCat doc cat ((getCat doc cat).filter (fun it => !(it.id == iid)))
  match deleted with
  | some it =>
    let doc2 :=
      if cat = Category.one_time_inflow ∨ cat = Category.purchases then
        update_balance doc1 cat (pyNeg it.amount)
      else doc1
    { doc := doc2, modified := true, success := true }
  | none => { doc := doc1, modified := false, success := true }

/-!
Concrete documents and requests used to evaluate the theorems on explicit
inputs.
-/

/-- A small concrete ledger document in the shape of get_default_data:
the salary item inc1, the balance item inc2, and two debts, the second
with an outstanding amount below its monthly payment. -/
def exDoc : Doc :=
  { income := [ { id := "inc1", name := "Monthly Salary", amount := PF.fin 100 },
                { id := "inc2", name := "Current Account Balance", amount := PF.fin 0 } ],
    one_time_inflow := [],
    expenses := [],
    investments := [],
    debts := [ { id := "dbt1", name := "Friend", amount := PF.fin 50, monthlyPayment := PF.fin 10 },
               { id := "dbt2", name := "Family", amount := PF.fin 5, monthlyPayment := PF.fin 10 } ],
    purchases := [],
    metadata := { last_balance_update_month := none, last_debt_payment_month := none } }

/-- The concrete document with the debt payment of January 2025 already
recorded. -/
def exDocDebtPaid : Doc :=
  { exDoc with metadata :=
      { last_balance_update_month := none, last_debt_payment_month := some "2025-01" } }

/-- The concrete document with no balance item in the income list. -/
def exDocNoBal : Doc :=
  { exDoc with income := [ { id := "inc1", name := "Monthly Salary", amount := PF.fin 100 } ] }

/-- A concrete purchase request body. -/
def exRaw : RawItem :=
  { id := "p9", name := "Sofa", amount := Val.pf (PF.fin 7), date := some "2025-01-15" }

/-!
Helper lemmas about list updates, the Python float model, the two phases of
the balance update engine, and the calendar scan, followed by the claim
theorems with their witnesses and counterexamples.
-/

theorem find?_updateFirstItem_self (iid : String) (f : Item → Item) (l : List Item)
    (hf : ∀ it : Item, (f it).id = it.id) :
    (updateFirstItem iid f l).find? (fun it => it.id == iid) =
      (l.find? (fun it => it.id == iid)).map f := by
  induction l with
  | nil => simp [updateFirstItem]
  | cons it tl ih =>
    by_cases h : (it.id == iid) = true
    · have hfid : ((f it).id == iid) = true := by rw [hf]; exact h
      simp [updateFirstItem, h, hfid]
    · simp [updateFirstItem, h, ih]

theorem find?_updateFirstItem_ne (iid j : String) (f : Item → Item) (l : List Item)
    (hf : ∀ it : Item, (f it).id = it.id) (hne : j ≠ iid) :
    (updateFirstItem iid f l).find? (fun it => it.id == j) =
      l.find? (fun it => it.id == j) := by
  induction l with
  | nil => simp [updateFirstItem]
  | cons it tl ih =>
    by_cases h : (it.id == iid) = true
    · have hid : it.id = iid := by simpa using h
      have hj : (it.id == j) = false := by
        simp [hid]
        exact fun hc => hne hc.symm
      have hfj : ((f it).id == j) = false := by rw [hf]; exact hj
      simp [updateFirstItem, h, hj, hfj]
    · by_cases h2 : (it.id == j) = true
      · simp [updateFirstItem, h, h2]
      · simp [updateFirstItem, h, h2, ih]

theorem updateFirstItem_comp (iid : String) (f g : Item → Item) (l : List Item)
    (hg : ∀ it : Item, (g it).id = it.id) :
    updateFirstItem iid f (updateFirstItem iid g l) =
      updateFirstItem iid (fun it => f (g it)) l := by
  induction l with
  | nil => simp [updateFirstItem]
  | cons it tl ih =>
    by_cases h : (it.id == iid) = true
    · have : ((g it).id == iid) = true := by rw [hg]; exact h
      simp [updateFirstItem, h, this]
    · simp [updateFirstItem, h, ih]

theorem updateFirstItem_congr_id (iid : String) (f : Item → Item) (l : List Item)
    (hf : ∀ it : Item, f it = it) :
    updateFirstItem iid f l = l := by
  induction l with
  | nil => simp [updateFirstItem]
  | cons it tl ih =>
    by_cases h : (it.id == iid) = true <;> simp [updateFirstItem, h, hf, ih]

theorem filter_id_of_find?_none (iid : String) (l : List Item)
    (h : l.find? (fun it => it.id == iid) = none) :
    l.filter (fun it => !(it.id == iid)) = l := by
  rw [List.find?_eq_none] at h
  rw [List.filter_eq_self]
  intro a ha
  simpa using h a ha

theorem find?_append_single (iid : String) (l : List Item) (x : Item)
    (h : l.find? (fun it => it.id == iid) = none) (hx : (x.id == iid) = true) :
    (l ++ [x]).find? (fun it => it.id == iid) = some x := by
  rw [List.find?_append, h]
  simp [hx]

theorem debt_phase_metadata_lbum (t : Date) (doc : Doc) :
    (debt_phase t doc).1.metadata.last_balance_update_month =
      doc.metadata.last_balance_update_month := by
  unfold debt_phase
  dsimp only
  by_cases hc : t.day = daysInMonth t.year t.month ∧
      doc.metadata.last_debt_payment_month ≠ some (monthKey t.year t.month)
  · rw [if_pos hc]
    cases hfind : doc.income.find? (fun it => it.id == "inc2") <;> simp
  · rw [if_neg hc]

theorem salary_phase_metadata_ldpm (t : Date) (doc : Doc) :
    (salary_phase t doc).1.metadata.last_debt_payment_month =
      doc.metadata.last_debt_payment_month := by
  unfold salary_phase
  cases h : get_salary_date t.year t.month with
  | none => rfl
  | some sd =>
    dsimp only
    by_cases hc : sd ≤ t.day ∧
        doc.metadata.last_balance_update_month ≠ some (monthKey t.year t.month)
    · rw [if_pos hc]
      cases h1 : doc.income.find? (fun it => it.id == "inc1") with
      | none => simp
      | some si =>
        cases h2 : doc.income.find? (fun it => it.id == "inc2") <;> simp
    · rw [if_neg hc]

theorem debt_phase_noop_of_guard (t : Date) (doc : Doc)
    (h : doc.metadata.last_debt_payment_month = some (monthKey t.year t.month)) :
    debt_phase t doc = (doc, false) := by
  unfold debt_phase
  dsimp only
  rw [if_neg]
  intro hc
  exact hc.2 (by rw [h])

theorem salary_phase_noop_of_guard (t : Date) (doc : Doc)
    (h : doc.metadata.last_balance_update_month = some (monthKey t.year t.month)) :
    salary_phase t doc = (doc, false) := by
  unfold salary_phase
  cases hs : get_salary_date t.year t.month with
  | none => rfl
  | some sd =>
    dsimp only
    rw [if_neg]
    intro hc
    exact hc.2 (by rw [h])

theorem check_noop_of_guards (t : Date) (doc : Doc)
    (h1 : doc.metadata.last_debt_payment_month = some (monthKey t.year t.month))
    (h2 : doc.metadata.last_balance_update_month = some (monthKey t.year t.month)) :
    check_and_update_balance t doc = (doc, false) := by
  unfold check_and_update_balance
  rw [debt_phase_noop_of_guard t doc h1]
  simp only
  rw [salary_phase_noop_of_guard t doc h2]
  rfl

theorem debt_phase_noop_of_not_cond (t : Date) (doc : Doc)
    (h : ¬(t.day = daysInMonth t.year t.month ∧
      doc.metadata.last_debt_payment_month ≠ some (monthKey t.year t.month))) :
    debt_phase t doc = (doc, false) := by
  unfold debt_phase
  dsimp only
  rw [if_neg h]

theorem debt_phase_noop_of_no_balance (t : Date) (doc : Doc)
    (h : doc.income.find? (fun it => it.id == "inc2") = none) :
    debt_phase t doc = (doc, false) := by
  unfold debt_phase
  dsimp only
  by_cases hc : t.day = daysInMonth t.year t.month ∧
      doc.metadata.last_debt_payment_month ≠ some (monthKey t.year t.month)
  · rw [if_pos hc, h]
  · rw [if_neg hc]

theorem salary_phase_noop_of_no_balance (t : Date) (doc : Doc)
    (h : doc.income.find? (fun it => it.id == "inc2") = none) :
    salary_phase t doc = (doc, false) := by
  unfold salary_phase
  cases hs : get_salary_date t.year t.month with
  | none => rfl
  | some sd =>
    dsimp only
    by_cases hc : sd ≤ t.day ∧
        doc.metadata.last_balance_update_month ≠ some (monthKey t.year t.month)
    · rw [if_pos hc, h]
      cases h1 : doc.income.find? (fun it => it.id == "inc1") <;> rfl
    · rw [if_neg hc]

theorem debt_phase_fires (t : Date) (doc : Doc) (bi : Item)
    (hbal : doc.income.find? (fun it => it.id == "inc2") = some bi)
    (hc : t.day = daysInMonth t.year t.month ∧
      doc.metadata.last_debt_payment_month ≠ some (monthKey t.year t.month)) :
    debt_phase t doc =
      ({ doc with
          income := updateFirstItem "inc2" (fun it => { it with amount := pySub it.amount (pySum (doc.debts.map (fun dbt => dbt.monthlyPayment))) }) doc.income,
          debts := doc.debts.map
            (fun dbt => { dbt with amount := pyMax (PF.fin 0) (pySub dbt.amount dbt.monthlyPayment) }),
          metadata := { doc.metadata with
            last_debt_payment_month := some (monthKey t.year t.month) } }, true) := by
  unfold debt_phase
  dsimp only
  rw [if_pos hc, hbal]

theorem salary_phase_fires (t : Date) (doc : Doc) (sd : Nat) (si bi : Item)
    (hsd : get_salary_date t.year t.month = some sd)
    (hsal : doc.income.find? (fun it => it.id == "inc1") = some si)
    (hbal : doc.income.find? (fun it => it.id == "inc2") = some bi)
    (hc : sd ≤ t.day ∧
      doc.metadata.last_balance_update_month ≠ some (monthKey t.year t.month)) :
    salary_phase t doc =
      ({ doc with
          income := updateFirstItem "inc2"
            (fun it => { it with amount := pyAdd it.amount si.amount }) doc.income,
          metadata := { doc.metadata with
            last_balance_update_month := some (monthKey t.year t.month) } }, true) := by
  unfold salary_phase
  rw [hsd]
  dsimp only
  rw [if_pos hc, hsal, hbal]

theorem debt_phase_of_flag_false (t : Date) (doc : Doc)
    (h : (debt_phase t doc).2 = false) : debt_phase t doc = (doc, false) := by
  unfold debt_phase at h ⊢
  dsimp only at h ⊢
  by_cases hc : t.day = daysInMonth t.year t.month ∧
      doc.metadata.last_debt_payment_month ≠ some (monthKey t.year t.month)
  · rw [if_pos hc] at h ⊢
    cases hb : doc.income.find? (fun it => it.id == "inc2") with
    | none => rfl
    | some bi => rw [hb] at h; simp at h
  · rw [if_neg hc]

theorem debt_phase_of_flag_true (t : Date) (doc : Doc)
    (h : (debt_phase t doc).2 = true) :
    (debt_phase t doc).1.metadata.last_debt_payment_month =
      some (monthKey t.year t.month) := by
  unfold debt_phase at h ⊢
  dsimp only at h ⊢
  by_cases hc : t.day = daysInMonth t.year t.month ∧
      doc.metadata.last_debt_payment_month ≠ some (monthKey t.year t.month)
  · rw [if_pos hc] at h ⊢
    cases hb : doc.income.find? (fun it => it.id == "inc2") with
    | none => rw [hb] at h; simp at h
    | some bi => rfl
  · rw [if_neg hc] at h; simp at h

theorem salary_phase_of_flag_false (t : Date) (doc : Doc)
    (h : (salary_phase t doc).2 = false) : salary_phase t doc = (doc, false) := by
  unfold salary_phase at h ⊢
  cases hs : get_salary_date t.year t.month with
  | none => rfl
  | some sd =>
    rw [hs] at h
    dsimp only at h ⊢
    by_cases hc : sd ≤ t.day ∧
        doc.metadata.last_balance_update_month ≠ some (monthKey t.year t.month)
    · rw [if_pos hc] at h ⊢
      cases h1 : doc.income.find? (fun it => it.id == "inc1") with
      | none => cases h2 : doc.income.find? (fun it => it.id == "inc2") <;> rfl
      | some si =>
        cases h2 : doc.income.find? (fun it => it.id == "inc2") with
        | none => rfl
        | some bi => rw [h1, h2] at h; simp at h
    · rw [if_neg hc]

theorem salary_phase_of_flag_true (t : Date) (doc : Doc)
    (h : (salary_phase t doc).2 = true) :
    (salary_phase t doc).1.metadata.last_balance_update_month =
      some (monthKey t.year t.month) := by
  unfold salary_phase at h ⊢
  cases hs : get_salary_date t.year t.month with
  | none => rw [hs] at h; simp at h
  | some sd =>
    rw [hs] at h
    dsimp only at h ⊢
    by_cases hc : sd ≤ t.day ∧
        doc.metadata.last_balance_update_month ≠ some (monthKey t.year t.month)
    · rw [if_pos hc] at h ⊢
      cases h1 : doc.income.find? (fun it => it.id == "inc1") with
      | none => rw [h1] at h; cases h2 : doc.income.find? (fun it => it.id == "inc2") <;>
          rw [h2] at h <;> simp at h
      | some si =>
        cases h2 : doc.income.find? (fun it => it.id == "inc2") with
        | none => rw [h1, h2] at h; simp at h
        | some bi => rfl
    · rw [if_neg hc] at h; simp at h

theorem check_and_update_balance_idem (t : Date) (doc : Doc) :
    check_and_update_balance t (check_and_update_balance t doc).1 =
      ((check_and_update_balance t doc).1, false) := by
  have hfst : (check_and_update_balance t doc).1 =
      (salary_phase t (debt_phase t doc).1).1 := rfl
  -- the document after one load
  set D1 := (debt_phase t doc).1 with hD1
  set D2 := (salary_phase t D1).1 with hD2
  -- the salary step is exhausted on D2
  have hs : salary_phase t D2 = (D2, false) := by
    cases hf2 : (salary_phase t D1).2 with
    | false =>
      have hid : salary_phase t D1 = (D1, false) := salary_phase_of_flag_false t D1 hf2
      have : D2 = D1 := by rw [hD2, hid]
      rw [this, hid]
    | true =>
      exact salary_phase_noop_of_guard t D2 (salary_phase_of_flag_true t D1 hf2)
  -- the debt step is exhausted on D2
  have hd : debt_phase t D2 = (D2, false) := by
    cases hf1 : (debt_phase t doc).2 with
    | true =>
      have hk : D1.metadata.last_debt_payment_month = some (monthKey t.year t.month) :=
        debt_phase_of_flag_true t doc hf1
      have hk2 : D2.metadata.last_debt_payment_month = some (monthKey t.year t.month) := by
        rw [hD2, salary_phase_metadata_ldpm]; exact hk
      exact debt_phase_noop_of_guard t D2 hk2
    | false =>
      have hid : debt_phase t doc = (doc, false) := debt_phase_of_flag_false t doc hf1
      have hD1doc : D1 = doc := by rw [hD1, hid]
      by_cases hc : t.day = daysInMonth t.year t.month ∧
          doc.metadata.last_debt_payment_month ≠ some (monthKey t.year t.month)
      · -- the condition held, so the balance item must be missing
        cases hb : doc.income.find? (fun it => it.id == "inc2") with
        | some bi =>
          exfalso
          have := debt_phase_fires t doc bi hb hc
          rw [this] at hid
          simp at hid
        | none =>
          have hsal : salary_phase t doc = (doc, false) :=
            salary_phase_noop_of_no_balance t doc hb
          have hD2doc : D2 = doc := by rw [hD2, hD1doc, hsal]
          rw [hD2doc]
          exact debt_phase_noop_of_no_balance t doc hb
      · have hcond2 : ¬(t.day = daysInMonth t.year t.month ∧
            D2.metadata.last_debt_payment_month ≠ some (monthKey t.year t.month)) := by
          intro hco
          apply hc
          refine ⟨hco.1, ?_⟩
          have : D2.metadata.last_debt_payment_month =
              doc.metadata.last_debt_payment_month := by
            rw [hD2, salary_phase_metadata_ldpm, hD1doc]
          rw [← this]
          exact hco.2
        exact debt_phase_noop_of_not_cond t D2 hcond2
  show check_and_update_balance t D2 = (D2, false)
  unfold check_and_update_balance
  rw [hd]
  dsimp only
  rw [hs]
  rfl

theorem dayNumber_succ (y m d : Nat) (hd : 1 ≤ d) :
    dayNumber y m (d + 1) = dayNumber y m d + 1 := by
  unfold dayNumber
  dsimp only
  omega

theorem weekday_lt (y m d : Nat) : weekday y m d < 7 := by
  unfold weekday
  omega

theorem weekday_succ (y m d : Nat) (hd : 1 ≤ d) :
    weekday y m (d + 1) = (weekday y m d + 1) % 7 := by
  unfold weekday
  rw [dayNumber_succ y m d hd]
  omega

theorem working_days_upto_succ (y m d : Nat) :
    working_days_upto y m (d + 1) =
      working_days_upto y m d ++ (if is_working_day y m (d + 1) then [d + 1] else []) := by
  unfold working_days_upto
  rw [List.range_succ]
  simp [List.filter_append]
  by_cases h : is_working_day y m (d + 1) <;> simp [h]

theorem scan_aux_eq_getElem? (y m offset : Nat) :
    ∀ d count, count < offset →
      scan_aux y m offset d count =
        ((working_days_upto y m d).reverse)[offset - 1 - count]? := by
  intro d
  induction d with
  | zero =>
    intro count hc
    simp [scan_aux, working_days_upto]
  | succ d ih =>
    intro count hc
    rw [working_days_upto_succ]
    by_cases hw : is_working_day y m (d + 1)
    · rw [if_pos hw]
      rw [List.reverse_append]
      simp only [List.reverse_singleton, List.singleton_append]
      unfold scan_aux
      rw [if_pos hw]
      by_cases he : count + 1 = offset
      · rw [if_pos he]
        have h0 : offset - 1 - count = 0 := by omega
        rw [h0]
        simp
      · rw [if_neg he]
        have hlt : count + 1 < offset := by omega
        have hidx : offset - 1 - count = (offset - 1 - (count + 1)) + 1 := by omega
        rw [hidx, List.getElem?_cons_succ]
        exact ih (count + 1) hlt
    · rw [if_neg hw]
      simp only [List.append_nil]
      unfold scan_aux
      rw [if_neg hw]
      exact ih count hc

theorem get_last_working_day_eq (y m offset : Nat) (h : 1 ≤ offset) :
    get_last_working_day y m offset = ((working_days y m).reverse)[offset - 1]? := by
  unfold get_last_working_day working_days
  have := scan_aux_eq_getElem? y m offset (daysInMonth y m) 0 (by omega)
  simpa using this

theorem daysInMonth_ge_28 (y m : Nat) (h1 : 1 ≤ m) (h2 : m ≤ 12) :
    28 ≤ daysInMonth y m := by
  unfold daysInMonth
  interval_cases m <;> simp <;> split <;> omega

theorem salary_date_of_sunday_end (y m : Nat) (h1 : 1 ≤ m) (h2 : m ≤ 12)
    (hsun : weekday y m (daysInMonth y m) = 6) :
    get_salary_date y m = some (daysInMonth y m - 4) ∧
      weekday y m (daysInMonth y m - 4) = 2 := by
  have h28 : 28 ≤ daysInMonth y m := daysInMonth_ge_28 y m h1 h2
  obtain ⟨k, hk⟩ : ∃ k, daysInMonth y m = k + 5 := ⟨daysInMonth y m - 5, by omega⟩
  rw [hk] at hsun
  have hlt4 := weekday_lt y m (k + 4)
  have hlt3 := weekday_lt y m (k + 3)
  have hlt2 := weekday_lt y m (k + 2)
  have hlt1 := weekday_lt y m (k + 1)
  have h4 : weekday y m (k + 4) = 5 := by
    have h := weekday_succ y m (k + 4) (by omega)
    have he : k + 4 + 1 = k + 5 := by omega
    rw [he] at h
    omega
  have h3 : weekday y m (k + 3) = 4 := by
    have h := weekday_succ y m (k + 3) (by omega)
    have he : k + 3 + 1 = k + 4 := by omega
    rw [he] at h
    omega
  have h2w : weekday y m (k + 2) = 3 := by
    have h := weekday_succ y m (k + 2) (by omega)
    have he : k + 2 + 1 = k + 3 := by omega
    rw [he] at h
    omega
  have h1w : weekday y m (k + 1) = 2 := by
    have h := weekday_succ y m (k + 1) (by omega)
    have he : k + 1 + 1 = k + 2 := by omega
    rw [he] at h
    omega
  have w5 : is_working_day y m (k + 5) = false := by simp [is_working_day, hsun]
  have w4 : is_working_day y m (k + 4) = false := by simp [is_working_day, h4]
  have w3 : is_working_day y m (k + 3) = true := by simp [is_working_day, h3]
  have w2 : is_working_day y m (k + 2) = true := by simp [is_working_day, h2w]
  have w1 : is_working_day y m (k + 1) = true := by simp [is_working_day, h1w]
  constructor
  · unfold get_salary_date get_last_working_day
    rw [hk]
    simp [scan_aux, w5, w4, w3, w2, w1]
  · have hx : daysInMonth y m - 4 = k + 1 := by omega
    rw [hx]
    exact h1w

theorem pyGe_pyMax_zero (x : PF) : pyGe (pyMax (PF.fin 0) x) (PF.fin 0) = true := by
  cases x with
  | fin q =>
    by_cases h : (0 : ℚ) < q
    · simp [pyMax, pyLt, pyGe, pyLe, h]
      linarith
    · simp [pyMax, pyLt, pyGe, pyLe, h]
  | nan => simp [pyMax, pyLt, pyGe, pyLe]
  | inf => simp [pyMax, pyLt, pyGe, pyLe]
  | ninf => simp [pyMax, pyLt, pyGe, pyLe]

theorem clamp_eq_zero_of_lt (a p : PF) (h : pyLt a p = true) :
    pyMax (PF.fin 0) (pySub a p) = PF.fin 0 := by
  cases a <;> cases p <;> simp [pyLt] at h <;>
    simp [pySub, pyNeg, pyAdd, pyMax, pyLt]
  case fin.fin a p =>
    intro hc
    linarith

theorem pyAdd_fin_cancel (a : PF) (q r : ℚ) (h : q + r = 0) :
    pyAdd (pyAdd a (PF.fin q)) (PF.fin r) = a := by
  cases a <;> simp [pyAdd]
  case fin b => linarith

/-- Claim C4. The totals calculator is a pure projection of the current
document, recomputed on every call: totalIncomeRate is the sum of the
income amounts excluding the inc2 balance entry, remainingBalance equals
totalIncomeRate minus the sum of totalExpenses, totalInvestments and
totalDebtPayment, and isPositive holds exactly when remainingBalance is at
least 0. -/
theorem claim_C4 (t : Date) (doc : Doc) :
    (calculate_totals t doc).totalIncomeRate =
      pySum ((doc.income.filter (fun it => !(it.id == "inc2"))).map (fun it => it.amount)) ∧
    (calculate_totals t doc).remainingBalance =
      pySub (calculate_totals t doc).totalIncomeRate
        (pyAdd (pyAdd (calculate_totals t doc).totalExpenses
            (calculate_totals t doc).totalInvestments)
          (calculate_totals t doc).totalDebtPayment) ∧
    (calculate_totals t doc).isPositive =
      pyGe (calculate_totals t doc).remainingBalance (PF.fin 0) :=
  ⟨rfl, rfl, rfl⟩

/-- Claim C3. The salary date is the third from last working day of the
month: the backward scan of the source equals indexing the reversed
ascending list of working days at position 2; it is none exactly when the
month has fewer than three working days; and for a month whose last
calendar day is a Sunday it is the Wednesday four days before month end,
itself a weekday-2 working day. -/
theorem claim_C3 (y m : Nat) :
    get_salary_date y m = ((working_days y m).reverse)[2]? ∧
    (get_salary_date y m = none ↔ (working_days y m).length < 3) ∧
    (1 ≤ m → m ≤ 12 → weekday y m (daysInMonth y m) = 6 →
      get_salary_date y m = some (daysInMonth y m - 4) ∧
        weekday y m (daysInMonth y m - 4) = 2) := by
  have h := get_last_working_day_eq y m 3 (by omega)
  have h2 : get_salary_date y m = ((working_days y m).reverse)[2]? := by
    unfold get_salary_date
    rw [h]
  refine ⟨h2, ?_, fun ha hb hs => salary_date_of_sunday_end y m ha hb hs⟩
  rw [h2]
  rw [List.getElem?_eq_none_iff]
  simp
  omega

/-- Claim C9, corrected. An update or delete request whose id is absent
from the named category silently no-ops: nothing is saved, the document is
unchanged, and the response still carries success true — no 404 and no
success false is produced, contrary to the distinct reporting the claim
asserts. -/
theorem claim_C9 (doc : Doc) (cat : Category) (iid : String) (field : UField) (v : Val)
    (h : (getCat doc cat).find? (fun it => it.id == iid) = none) :
    update_item doc cat iid field v = some ⟨doc, false, true⟩ ∧
    delete_item doc cat iid = ⟨doc, false, true⟩ := by
  constructor
  · unfold update_item
    rw [h]
  · unfold delete_item
    dsimp only
    rw [h, filter_id_of_find?_none iid (getCat doc cat) h]
    cases cat <;> rfl

theorem getCat_setCat (doc : Doc) (cat : Category) (l : List Item) :
    getCat (setCat doc cat l) cat = l := by
  cases cat <;> rfl

/-- Claim C10. When no income entry with id inc2 exists, every
balance-adjusting path is inert: a load returns the document unchanged
without saving, instant-category add, update and delete leave the income
list and the metadata guards untouched while still editing the targeted
category list, and the totals calculator reports currentBalance 0. -/
theorem claim_C10 (doc : Doc)
    (hb : doc.income.find? (fun it => it.id == "inc2") = none) :
    (∀ t, check_and_update_balance t doc = (doc, false)) ∧
    (∀ cat, cat = Category.one_time_inflow ∨ cat = Category.purchases →
      (∀ raw : RawItem,
        (add_item doc cat raw).doc.income = doc.income ∧
        (add_item doc cat raw).doc.metadata = doc.metadata ∧
        getCat (add_item doc cat raw).doc cat = getCat doc cat ++ [stored_add_item raw]) ∧
      (∀ iid field v r, update_item doc cat iid field v = some r →
        r.doc.income = doc.income ∧ r.doc.metadata = doc.metadata) ∧
      (∀ iid, (delete_item doc cat iid).doc.income = doc.income ∧
        (delete_item doc cat iid).doc.metadata = doc.metadata)) ∧
    (∀ t, (calculate_totals t doc).currentBalance = PF.fin 0) := by
  refine ⟨?_, ?_, ?_⟩
  · intro t
    unfold check_and_update_balance
    rw [debt_phase_noop_of_no_balance t doc hb]
    dsimp only
    rw [salary_phase_noop_of_no_balance t doc hb]
    rfl
  · intro cat hcat
    have hinc : ∀ l, (setCat doc cat l).income = doc.income := by
      rcases hcat with h | h <;> subst h <;> intro l <;> rfl
    have hmeta : ∀ l, (setCat doc cat l).metadata = doc.metadata := by
      rcases hcat with h | h <;> subst h <;> intro l <;> rfl
    have hubal : ∀ (d1 : Doc) (c : PF), d1.income = doc.income → update_balance d1 cat c = d1 := by
      intro d1 c hinc1
      unfold update_balance
      rw [hinc1, hb]
    refine ⟨?_, ?_, ?_⟩
    · intro raw
      unfold add_item
      dsimp only
      rw [if_pos hcat]
      rw [hubal _ _ (hinc _)]
      exact ⟨hinc _, hmeta _, getCat_setCat doc cat _⟩
    · intro iid field v r hr
      unfold update_item at hr
      cases hfind : (getCat doc cat).find? (fun it => it.id == iid) with
      | none =>
        rw [hfind] at hr
        have : r = ⟨doc, false, true⟩ := by
          injection hr with h
          exact h.symm
        subst this
        exact ⟨rfl, rfl⟩
      | some item =>
        rw [hfind] at hr
        cases field with
        | amount =>
          dsimp only at hr
          cases hfv : float_of_val v with
          | ok x =>
            rw [hfv] at hr
            dsimp only at hr
            rw [if_pos hcat, hubal _ _ (hinc _)] at hr
            have : r = ⟨setCat doc cat (updateFirstItem iid (fun it => { it with amount := x }) (getCat doc cat)), true, true⟩ := by
              injection hr with h
              exact h.symm
            subst this
            exact ⟨hinc _, hmeta _⟩
          | error e =>
            rw [hfv] at hr
            cases e with
            | valueError =>
              have : r = ⟨doc, false, true⟩ := by
                injection hr with h
                exact h.symm
              subst this
              exact ⟨rfl, rfl⟩
            | typeError => exact absurd hr (by simp)
        | monthlyPayment =>
          dsimp only at hr
          cases hfv : float_of_val v with
          | ok x =>
            rw [hfv] at hr
            have : r = ⟨setCat doc cat (updateFirstItem iid (fun it => { it with monthlyPayment := x }) (getCat doc cat)), true, true⟩ := by
              injection hr with h
              exact h.symm
            subst this
            exact ⟨hinc _, hmeta _⟩
          | error e =>
            rw [hfv] at hr
            cases e with
            | valueError =>
              have : r = ⟨doc, false, true⟩ := by
                injection hr with h
                exact h.symm
              subst this
              exact ⟨rfl, rfl⟩
            | typeError => exact absurd hr (by simp)
        | name =>
          have : r = ⟨setCat doc cat (updateFirstItem iid (fun it => { it with name := valAsString v }) (getCat doc cat)), true, true⟩ := by
            injection hr with h
            exact h.symm
          subst this
          exact ⟨hinc _, hmeta _⟩
        | date =>
          have : r = ⟨setCat doc cat (updateFirstItem iid (fun it => { it with date := some (valAsString v) }) (getCat doc cat)), true, true⟩ := by
            injection hr with h
            exact h.symm
          subst this
          exact ⟨hinc _, hmeta _⟩
    · intro iid
      unfold delete_item
      dsimp only
      cases hfind : (getCat doc cat).find? (fun it => it.id == iid) with
      | none => exact ⟨hinc _, hmeta _⟩
      | some item =>
        dsimp only
        rw [if_pos hcat, hubal _ _ (hinc _)]
        exact ⟨hinc _, hmeta _⟩
  · intro t
    unfold calculate_totals
    rw [hb]
    rfl

/-- Claim C2. With the balance item present, the debt trigger fires
exactly when the current date is the last calendar day of the month and
last_debt_payment_month differs from the current month key; firing debits
the balance by the sum of all monthly payments, replaces every debt amount
by max(0, amount - monthlyPayment), and sets the guard to the month key;
and a repeated load on the same day or later in the same month (the end of
month being the last day, the same day) leaves the document — debts and
balance included — unchanged. -/
theorem claim_C2 (y m d : Nat) (doc : Doc) (bi : Item)
    (hbal : doc.income.find? (fun it => it.id == "inc2") = some bi) :
    ((debt_phase ⟨y, m, d⟩ doc).2 = true ↔
      d = daysInMonth y m ∧
        doc.metadata.last_debt_payment_month ≠ some (monthKey y m)) ∧
    (d = daysInMonth y m ∧
        doc.metadata.last_debt_payment_month ≠ some (monthKey y m) →
      balanceAmount (debt_phase ⟨y, m, d⟩ doc).1 =
        some (pySub bi.amount (pySum (doc.debts.map (fun dbt => dbt.monthlyPayment)))) ∧
      (debt_phase ⟨y, m, d⟩ doc).1.debts = doc.debts.map
        (fun dbt => { dbt with amount := pyMax (PF.fin 0) (pySub dbt.amount dbt.monthlyPayment) }) ∧
      (debt_phase ⟨y, m, d⟩ doc).1.metadata.last_debt_payment_month =
        some (monthKey y m)) ∧
    (∀ d2, d ≤ d2 → d2 ≤ daysInMonth y m → d = daysInMonth y m →
      check_and_update_balance ⟨y, m, d2⟩ (check_and_update_balance ⟨y, m, d⟩ doc).1 =
        ((check_and_update_balance ⟨y, m, d⟩ doc).1, false)) := by
  refine ⟨⟨?_, ?_⟩, ?_, ?_⟩
  · intro hflag
    by_contra hc
    rw [debt_phase_noop_of_not_cond ⟨y, m, d⟩ doc hc] at hflag
    simp at hflag
  · intro hc
    rw [debt_phase_fires ⟨y, m, d⟩ doc bi hbal hc]
  · intro hc
    rw [debt_phase_fires ⟨y, m, d⟩ doc bi hbal hc]
    refine ⟨?_, rfl, rfl⟩
    unfold balanceAmount
    dsimp only
    rw [find?_updateFirstItem_self "inc2"
      (fun it => { it with amount := pySub it.amount (pySum (doc.debts.map (fun dbt => dbt.monthlyPayment))) })
      doc.income (fun it => rfl), hbal]
    rfl
  · intro d2 h1 h2 h3
    have : d2 = d := by omega
    subst this
    exact check_and_update_balance_idem ⟨y, m, d2⟩ doc

/-- Claim C1, corrected. The salary credit is applied exactly once per
month: with the salary item inc1 and balance item inc2 present, the salary
date reached and the salary guard not yet the current month key, the load
credits the balance with the salary amount, sets
last_balance_update_month, and saves; and provided the independent debt
trigger is already spent for the month (last_debt_payment_month equal to
the current month key), every further load in that month returns the
document unchanged.  Without that proviso the original claim fails: a
later end-of-month load still fires the debt trigger (see the
counterexample). -/
theorem claim_C1 (y m d : Nat) (doc : Doc) (sd : Nat) (si bi : Item)
    (hsd : get_salary_date y m = some sd)
    (hsal : doc.income.find? (fun it => it.id == "inc1") = some si)
    (hbal : doc.income.find? (fun it => it.id == "inc2") = some bi)
    (hday : sd ≤ d)
    (hg : doc.metadata.last_balance_update_month ≠ some (monthKey y m))
    (hdg : doc.metadata.last_debt_payment_month = some (monthKey y m)) :
    balanceAmount (check_and_update_balance ⟨y, m, d⟩ doc).1 =
      some (pyAdd bi.amount si.amount) ∧
    (check_and_update_balance ⟨y, m, d⟩ doc).1.metadata.last_balance_update_month =
      some (monthKey y m) ∧
    (check_and_update_balance ⟨y, m, d⟩ doc).2 = true ∧
    (∀ d2, check_and_update_balance ⟨y, m, d2⟩ (check_and_update_balance ⟨y, m, d⟩ doc).1 =
      ((check_and_update_balance ⟨y, m, d⟩ doc).1, false)) := by
  have hrun : check_and_update_balance ⟨y, m, d⟩ doc =
      ({ doc with
          income := updateFirstItem "inc2"
            (fun it => { it with amount := pyAdd it.amount si.amount }) doc.income,
          metadata := { doc.metadata with
            last_balance_update_month := some (monthKey y m) } }, true) := by
    unfold check_and_update_balance
    rw [debt_phase_noop_of_guard ⟨y, m, d⟩ doc hdg]
    dsimp only
    rw [salary_phase_fires ⟨y, m, d⟩ doc sd si bi hsd hsal hbal ⟨hday, hg⟩]
    rfl
  rw [hrun]
  refine ⟨?_, rfl, rfl, ?_⟩
  · unfold balanceAmount
    dsimp only
    rw [find?_updateFirstItem_self "inc2"
      (fun it => { it with amount := pyAdd it.amount si.amount })
      doc.income (fun it => rfl), hbal]
    rfl
  · intro d2
    apply check_noop_of_guards
    · exact hdg
    · rfl

/-- Claim C6, corrected. When the monthly debt payment fires, every debt
amount becomes max(0, amount - monthlyPayment), hence is nonnegative
afterwards, and a debt whose amount is strictly below its monthly payment
ends at exactly 0, never negative.  The unrestricted claim — nonnegativity
after every Add, Update, Delete as well — fails, since those operations
store negative amounts without validation (see the counterexample). -/
theorem claim_C6 (y m d : Nat) (doc : Doc) (bi : Item)
    (hbal : doc.income.find? (fun it => it.id == "inc2") = some bi)
    (hc : d = daysInMonth y m ∧
      doc.metadata.last_debt_payment_month ≠ some (monthKey y m)) :
    (debt_phase ⟨y, m, d⟩ doc).1.debts = doc.debts.map
      (fun dbt => { dbt with amount := pyMax (PF.fin 0) (pySub dbt.amount dbt.monthlyPayment) }) ∧
    (∀ dbt ∈ (debt_phase ⟨y, m, d⟩ doc).1.debts, pyGe dbt.amount (PF.fin 0) = true) ∧
    (∀ dbt ∈ doc.debts, pyLt dbt.amount dbt.monthlyPayment = true →
      pyMax (PF.fin 0) (pySub dbt.amount dbt.monthlyPayment) = PF.fin 0) := by
  rw [debt_phase_fires ⟨y, m, d⟩ doc bi hbal hc]
  refine ⟨rfl, ?_, ?_⟩
  · intro dbt hmem
    dsimp only at hmem
    rw [List.mem_map] at hmem
    obtain ⟨src, hsrc, rfl⟩ := hmem
    exact pyGe_pyMax_zero _
  · intro dbt hmem hlt
    exact clamp_eq_zero_of_lt _ _ hlt

/-- Claim C7, corrected. The backend does not protect the distinguished
balance item: a delete request for inc2 in income removes it — the income
list becomes the list filtered of inc2 while success is still reported —
and an update request renaming it succeeds and changes its name.  The
rejection the claim describes exists only in the browser client, not in
the API the claim points at. -/
theorem claim_C7 (doc : Doc) (s : String) (bi : Item)
    (hbal : doc.income.find? (fun it => it.id == "inc2") = some bi) :
    (delete_item doc Category.income "inc2").doc.income =
      doc.income.filter (fun it => !(it.id == "inc2")) ∧
    (delete_item doc Category.income "inc2").success = true ∧
    (∃ r, update_item doc Category.income "inc2" UField.name (Val.str s) = some r ∧
      r.doc.income.find? (fun it => it.id == "inc2") = some { bi with name := s } ∧
      r.success = true) := by
  refine ⟨?_, ?_, ?_⟩
  · unfold delete_item
    dsimp only [getCat, setCat]
    rw [hbal]
    have hcond : ¬(Category.income = Category.one_time_inflow ∨
        Category.income = Category.purchases) := by simp
    dsimp only
    rw [if_neg hcond]
  · unfold delete_item
    dsimp only [getCat, setCat]
    rw [hbal]
  · unfold update_item
    dsimp only [getCat, setCat]
    rw [hbal]
    refine ⟨_, rfl, ?_, rfl⟩
    show (updateFirstItem "inc2"
        (fun it => { it with name := valAsString (Val.str s) }) doc.income).find?
        (fun it => it.id == "inc2") = some { bi with name := s }
    rw [find?_updateFirstItem_self "inc2"
      (fun it => { it with name := valAsString (Val.str s) }) doc.income (fun it => rfl), hbal]
    rfl

theorem getCat_update_balance (d : Doc) (c : Category) (x : PF) (cat2 : Category)
    (h : cat2 ≠ Category.income) :
    getCat (update_balance d c x) cat2 = getCat d cat2 := by
  unfold update_balance
  cases hf : d.income.find? (fun it => it.id == "inc2") <;> cases c <;> cases cat2 <;>
    first
      | rfl
      | exact absurd rfl h

/-- Claim C5, corrected. Add coerces the amount with float(): a value
float() rejects (an unparsable string or null) is stored as 0, and a
parsed value is stored as parsed — including the non-finite values that
the strings nan, inf and Infinity parse to, so the stored amount is not
always finite (see the counterexample); Update with a value that float()
rejects with ValueError leaves the document unchanged, keeping the old
amount rather than storing 0. -/
theorem claim_C5 (doc : Doc) (cat : Category) (raw : RawItem) (iid : String) (v : Val) :
    getCat (add_item doc cat raw).doc cat = getCat doc cat ++ [stored_add_item raw] ∧
    ((∃ e, float_of_val raw.amount = Except.error e) →
      (stored_add_item raw).amount = PF.fin 0) ∧
    (∀ x, float_of_val raw.amount = Except.ok x → (stored_add_item raw).amount = x) ∧
    (float_of_val v = Except.error FErr.valueError →
      update_item doc cat iid UField.amount v = some ⟨doc, false, true⟩) := by
  refine ⟨?_, ?_, ?_, ?_⟩
  · unfold add_item
    dsimp only
    by_cases hcat : cat = Category.one_time_inflow ∨ cat = Category.purchases
    · rw [if_pos hcat]
      have hni : cat ≠ Category.income := by
        rcases hcat with h | h <;> subst h <;> simp
      rw [getCat_update_balance _ _ _ _ hni]
      exact getCat_setCat doc cat _
    · rw [if_neg hcat]
      exact getCat_setCat doc cat _
  · intro ⟨e, he⟩
    unfold stored_add_item coerce_amount
    rw [he]
  · intro x hx
    unfold stored_add_item coerce_amount
    rw [hx]
  · intro hv
    unfold update_item
    cases hfind : (getCat doc cat).find? (fun it => it.id == iid) with
    | none => rfl
    | some item =>
      dsimp only
      rw [hv]

theorem update_balance_of_none (d : Doc) (c : Category) (x : PF)
    (h : d.income.find? (fun it => it.id == "inc2") = none) :
    update_balance d c x = d := by
  unfold update_balance
  rw [h]

theorem update_balance_purchases_of_some (d : Doc) (x : PF) (bi : Item)
    (h : d.income.find? (fun it => it.id == "inc2") = some bi) :
    update_balance d Category.purchases x =
      { d with income := updateFirstItem "inc2" (fun it => { it with amount := pySub it.amount x }) d.income } := by
  unfold update_balance
  rw [h]

theorem update_balance_inflow_of_some (d : Doc) (x : PF) (bi : Item)
    (h : d.income.find? (fun it => it.id == "inc2") = some bi) :
    update_balance d Category.one_time_inflow x =
      { d with income := updateFirstItem "inc2" (fun it => { it with amount := pyAdd it.amount x }) d.income } := by
  unfold update_balance
  rw [h]

theorem c8_purchases (doc : Doc) (X : ℚ) (pid nm : String) (mp : PF) (dt : Option String)
    (hfresh : doc.purchases.find? (fun it => it.id == pid) = none) :
    (delete_item (add_item doc Category.purchases
        { id := pid, name := nm, amount := Val.pf (PF.fin X), monthlyPayment := mp, date := dt }).doc
        Category.purchases pid).doc = doc := by
  have hx : (({ id := pid, name := nm, amount := PF.fin X, monthlyPayment := mp, date := dt } : Item).id == pid) = true := by simp
  have hadd : (add_item doc Category.purchases
      { id := pid, name := nm, amount := Val.pf (PF.fin X), monthlyPayment := mp, date := dt }).doc =
      update_balance { doc with purchases := doc.purchases ++ [{ id := pid, name := nm, amount := PF.fin X, monthlyPayment := mp, date := dt }] } Category.purchases (PF.fin X) := by
    unfold add_item
    dsimp only [getCat, setCat, coerce_amount, float_of_val, stored_add_item]
    rw [if_pos (Or.inr rfl)]
  have hfilt : (doc.purchases ++
      [({ id := pid, name := nm, amount := PF.fin X, monthlyPayment := mp, date := dt } : Item)]).filter
        (fun it => !(it.id == pid)) = doc.purchases := by
    rw [List.filter_append, filter_id_of_find?_none pid doc.purchases hfresh]
    simp [hx]
  have hfindapp : (doc.purchases ++
      [({ id := pid, name := nm, amount := PF.fin X, monthlyPayment := mp, date := dt } : Item)]).find?
        (fun it => it.id == pid) =
      some { id := pid, name := nm, amount := PF.fin X, monthlyPayment := mp, date := dt } :=
    find?_append_single pid doc.purchases _ hfresh hx
  rw [hadd]
  cases hfb : doc.income.find? (fun it => it.id == "inc2") with
  | none =>
    rw [update_balance_of_none
      { doc with purchases := doc.purchases ++ [{ id := pid, name := nm, amount := PF.fin X, monthlyPayment := mp, date := dt }] }
      Category.purchases (PF.fin X) hfb]
    unfold delete_item
    dsimp only [getCat, setCat]
    rw [hfindapp]
    dsimp only
    rw [if_pos (Or.inr rfl), hfilt]
    rw [update_balance_of_none
      { doc with purchases := doc.purchases } Category.purchases _ hfb]
  | some bi =>
    rw [update_balance_purchases_of_some
      { doc with purchases := doc.purchases ++ [{ id := pid, name := nm, amount := PF.fin X, monthlyPayment := mp, date := dt }] }
      (PF.fin X) bi hfb]
    unfold delete_item
    dsimp only [getCat, setCat]
    rw [hfindapp]
    dsimp only
    rw [if_pos (Or.inr rfl), hfilt]
    have hfb2 : (updateFirstItem "inc2"
        (fun it => { it with amount := pySub it.amount (PF.fin X) }) doc.income).find?
        (fun it => it.id == "inc2") =
        some { bi with amount := pySub bi.amount (PF.fin X) } := by
      rw [find?_updateFirstItem_self "inc2"
        (fun it => { it with amount := pySub it.amount (PF.fin X) }) doc.income (fun it => rfl), hfb]
      rfl
    rw [update_balance_purchases_of_some
      { income := updateFirstItem "inc2" (fun it => { it with amount := pySub it.amount (PF.fin X) }) doc.income,
        one_time_inflow := doc.one_time_inflow, expenses := doc.expenses, investments := doc.investments,
        debts := doc.debts, purchases := doc.purchases, metadata := doc.metadata }
      (pyNeg (PF.fin X)) { bi with amount := pySub bi.amount (PF.fin X) } hfb2]
    dsimp only
    rw [updateFirstItem_comp "inc2"
      (fun it => { it with amount := pySub it.amount (pyNeg (PF.fin X)) })
      (fun it => { it with amount := pySub it.amount (PF.fin X) }) doc.income (fun it => rfl)]
    rw [updateFirstItem_congr_id]
    intro it
    show ({ it with amount := pySub (pySub it.amount (PF.fin X)) (pyNeg (PF.fin X)) } : Item) = it
    have hamt : pySub (pySub it.amount (PF.fin X)) (pyNeg (PF.fin X)) = it.amount := by
      show pyAdd (pyAdd it.amount (pyNeg (PF.fin X))) (pyNeg (pyNeg (PF.fin X))) = it.amount
      show pyAdd (pyAdd it.amount (PF.fin (-X))) (PF.fin (-(-X))) = it.amount
      exact pyAdd_fin_cancel it.amount (-X) (-(-X)) (by ring)
    rw [hamt]

theorem c8_inflow (doc : Doc) (X : ℚ) (pid nm : String) (mp : PF) (dt : Option String)
    (hfresh : doc.one_time_inflow.find? (fun it => it.id == pid) = none) :
    (delete_item (add_item doc Category.one_time_inflow
        { id := pid, name := nm, amount := Val.pf (PF.fin X), monthlyPayment := mp, date := dt }).doc
        Category.one_time_inflow pid).doc = doc := by
  have hx : (({ id := pid, name := nm, amount := PF.fin X, monthlyPayment := mp, date := dt } : Item).id == pid) = true := by simp
  have hadd : (add_item doc Category.one_time_inflow
      { id := pid, name := nm, amount := Val.pf (PF.fin X), monthlyPayment := mp, date := dt }).doc =
      update_balance { doc with one_time_inflow := doc.one_time_inflow ++ [{ id := pid, name := nm, amount := PF.fin X, monthlyPayment := mp, date := dt }] } Category.one_time_inflow (PF.fin X) := by
    unfold add_item
    dsimp only [getCat, setCat, coerce_amount, float_of_val, stored_add_item]
    rw [if_pos (Or.inl rfl)]
  have hfilt : (doc.one_time_inflow ++
      [({ id := pid, name := nm, amount := PF.fin X, monthlyPayment := mp, date := dt } : Item)]).filter
        (fun it => !(it.id == pid)) = doc.one_time_inflow := by
    rw [List.filter_append, filter_id_of_find?_none pid doc.one_time_inflow hfresh]
    simp [hx]
  have hfindapp : (doc.one_time_inflow ++
      [({ id := pid, name := nm, amount := PF.fin X, monthlyPayment := mp, date := dt } : Item)]).find?
        (fun it => it.id == pid) =
      some { id := pid, name := nm, amount := PF.fin X, monthlyPayment := mp, date := dt } :=
    find?_append_single pid doc.one_time_inflow _ hfresh hx
  rw [hadd]
  cases hfb : doc.income.find? (fun it => it.id == "inc2") with
  | none =>
    rw [update_balance_of_none
      { doc with one_time_inflow := doc.one_time_inflow ++ [{ id := pid, name := nm, amount := PF.fin X, monthlyPayment := mp, date := dt }] }
      Category.one_time_inflow (PF.fin X) hfb]
    unfold delete_item
    dsimp only [getCat, setCat]
    rw [hfindapp]
    dsimp only
    rw [if_pos (Or.inl rfl), hfilt]
    rw [update_balance_of_none
      { doc with one_time_inflow := doc.one_time_inflow } Category.one_time_inflow _ hfb]
  | some bi =>
    rw [update_balance_inflow_of_some
      { doc with one_time_inflow := doc.one_time_inflow ++ [{ id := pid, name := nm, amount := PF.fin X, monthlyPayment := mp, date := dt }] }
      (PF.fin X) bi hfb]
    unfold delete_item
    dsimp only [getCat, setCat]
    rw [hfindapp]
    dsimp only
    rw [if_pos (Or.inl rfl), hfilt]
    have hfb2 : (updateFirstItem "inc2"
        (fun it => { it with amount := pyAdd it.amount (PF.fin X) }) doc.income).find?
        (fun it => it.id == "inc2") =
        some { bi with amount := pyAdd bi.amount (PF.fin X) } := by
      rw [find?_updateFirstItem_self "inc2"
        (fun it => { it with amount := pyAdd it.amount (PF.fin X) }) doc.income (fun it => rfl), hfb]
      rfl
    rw [update_balance_inflow_of_some
      { income := updateFirstItem "inc2" (fun it => { it with amount := pyAdd it.amount (PF.fin X) }) doc.income,
        one_time_inflow := doc.one_time_inflow, expenses := doc.expenses, investments := doc.investments,
        debts := doc.debts, purchases := doc.purchases, metadata := doc.metadata }
      (pyNeg (PF.fin X)) { bi with amount := pyAdd bi.amount (PF.fin X) } hfb2]
    dsimp only
    rw [updateFirstItem_comp "inc2"
      (fun it => { it with amount := pyAdd it.amount (pyNeg (PF.fin X)) })
      (fun it => { it with amount := pyAdd it.amount (PF.fin X) }) doc.income (fun it => rfl)]
    rw [updateFirstItem_congr_id]
    intro it
    show ({ it with amount := pyAdd (pyAdd it.amount (PF.fin X)) (pyNeg (PF.fin X)) } : Item) = it
    have hamt : pyAdd (pyAdd it.amount (PF.fin X)) (pyNeg (PF.fin X)) = it.amount := by
      show pyAdd (pyAdd it.amount (PF.fin X)) (PF.fin (-X)) = it.amount
      exact pyAdd_fin_cancel it.amount X (-X) (by ring)
    rw [hamt]

/-- Claim C8. For every finite amount X, adding a purchase of amount X and
then deleting that same purchase (its id fresh in the category) restores
the document, in particular the balance item amount, exactly — the model
carries no rounding; the same holds for a one-time inflow of amount X. -/
theorem claim_C8 (doc : Doc) (X : ℚ) (pid nm : String) (mp : PF) (dt : Option String) :
    (doc.purchases.find? (fun it => it.id == pid) = none →
      (delete_item (add_item doc Category.purchases { id := pid, name := nm, amount := Val.pf (PF.fin X), monthlyPayment := mp, date := dt }).doc Category.purchases pid).doc = doc ∧
      balanceAmount (delete_item (add_item doc Category.purchases { id := pid, name := nm, amount := Val.pf (PF.fin X), monthlyPayment := mp, date := dt }).doc Category.purchases pid).doc = balanceAmount doc) ∧
    (doc.one_time_inflow.find? (fun it => it.id == pid) = none →
      (delete_item (add_item doc Category.one_time_inflow { id := pid, name := nm, amount := Val.pf (PF.fin X), monthlyPayment := mp, date := dt }).doc Category.one_time_inflow pid).doc = doc ∧
      balanceAmount (delete_item (add_item doc Category.one_time_inflow { id := pid, name := nm, amount := Val.pf (PF.fin X), monthlyPayment := mp, date := dt }).doc Category.one_time_inflow pid).doc = balanceAmount doc) := by
  constructor
  · intro hf
    have h := c8_purchases doc X pid nm mp dt hf
    exact ⟨h, by rw [h]⟩
  · intro hf
    have h := c8_inflow doc X pid nm mp dt hf
    exact ⟨h, by rw [h]⟩

/-- Refutation for claim C1: on a document with a debt, the salary date of
January 2025 (the 29th) passed and both guards clear, the load of the 29th
applies the salary credit, yet the later load of the 31st (end of month)
changes the state again through the independent debt trigger — so not
every load after the first application leaves the document unchanged. -/
theorem claim_C1_counterexample :
    get_salary_date 2025 1 = some 29 ∧
    (check_and_update_balance ⟨2025, 1, 29⟩ exDoc).2 = true ∧
    (check_and_update_balance ⟨2025, 1, 31⟩
        (check_and_update_balance ⟨2025, 1, 29⟩ exDoc).1).1 ≠
      (check_and_update_balance ⟨2025, 1, 29⟩ exDoc).1 :=
  ⟨by with_unfolding_all rfl, by with_unfolding_all rfl,
    of_decide_eq_true (by with_unfolding_all rfl)⟩

/-- Witness for claim C1 at the concrete document with the January debt
payment already recorded: the load of 2025-01-29 credits the salary and
sets the guard, and the later load of 2025-01-31 changes nothing. -/
theorem claim_C1_witness :
    balanceAmount (check_and_update_balance ⟨2025, 1, 29⟩ exDocDebtPaid).1 =
      some (pyAdd (PF.fin 0) (PF.fin 100)) ∧
    (check_and_update_balance ⟨2025, 1, 29⟩ exDocDebtPaid).1.metadata.last_balance_update_month =
      some (monthKey 2025 1) ∧
    (check_and_update_balance ⟨2025, 1, 29⟩ exDocDebtPaid).2 = true ∧
    check_and_update_balance ⟨2025, 1, 31⟩
        (check_and_update_balance ⟨2025, 1, 29⟩ exDocDebtPaid).1 =
      ((check_and_update_balance ⟨2025, 1, 29⟩ exDocDebtPaid).1, false) := by
  have h := claim_C1 2025 1 29 exDocDebtPaid 29
    { id := "inc1", name := "Monthly Salary", amount := PF.fin 100 }
    { id := "inc2", name := "Current Account Balance", amount := PF.fin 0 }
    (by with_unfolding_all rfl) (by with_unfolding_all rfl) (by with_unfolding_all rfl)
    (by omega) (of_decide_eq_true (by with_unfolding_all rfl)) (by with_unfolding_all rfl)
  exact ⟨h.1, h.2.1, h.2.2.1, h.2.2.2 31⟩

/-- Witness for claim C2 at the concrete document on 2025-01-31: the debt
trigger fires, debits the balance by the total monthly payment, sets the
guard, and a repeated load of the same day changes nothing. -/
theorem claim_C2_witness :
    (debt_phase ⟨2025, 1, 31⟩ exDoc).2 = true ∧
    balanceAmount (debt_phase ⟨2025, 1, 31⟩ exDoc).1 =
      some (pySub (PF.fin 0) (pySum (exDoc.debts.map (fun dbt => dbt.monthlyPayment)))) ∧
    (debt_phase ⟨2025, 1, 31⟩ exDoc).1.metadata.last_debt_payment_month =
      some (monthKey 2025 1) ∧
    check_and_update_balance ⟨2025, 1, 31⟩
        (check_and_update_balance ⟨2025, 1, 31⟩ exDoc).1 =
      ((check_and_update_balance ⟨2025, 1, 31⟩ exDoc).1, false) := by
  have h := claim_C2 2025 1 31 exDoc
    { id := "inc2", name := "Current Account Balance", amount := PF.fin 0 }
    (by with_unfolding_all rfl)
  have hc : (31 : Nat) = daysInMonth 2025 1 ∧
      exDoc.metadata.last_debt_payment_month ≠ some (monthKey 2025 1) :=
    ⟨by decide, of_decide_eq_true (by with_unfolding_all rfl)⟩
  exact ⟨h.1.2 hc, (h.2.1 hc).1, (h.2.1 hc).2.2,
    h.2.2 31 (le_refl 31) (by decide) (by decide)⟩

/-- Witness for claim C3 at August 2025, whose last day (the 31st) is a
Sunday: the salary date is the Wednesday four days before month end. -/
theorem claim_C3_witness :
    get_salary_date 2025 8 = ((working_days 2025 8).reverse)[2]? ∧
    get_salary_date 2025 8 = some (daysInMonth 2025 8 - 4) ∧
    weekday 2025 8 (daysInMonth 2025 8 - 4) = 2 := by
  have h := claim_C3 2025 8
  have h3 := h.2.2 (by omega) (by omega) (by decide)
  exact ⟨h.1, h3.1, h3.2⟩

/-- Refutation for claim C5: the string NaN passes float() and the stored
amount of the added item is the non-finite nan, and an update with the
string inf stores Infinity — not a finite number defaulting to 0. -/
theorem claim_C5_counterexample :
    ((add_item exDoc Category.expenses
        { id := "x1", name := "n", amount := Val.str "NaN" }).doc.expenses.map
      (fun it => it.amount)) = [PF.nan] ∧
    PF.isFinite PF.nan = false ∧
    ((update_item exDoc Category.income "inc1" UField.amount (Val.str "inf")).map
      (fun r => r.doc.income.map (fun it => it.amount))) = some [PF.inf, PF.fin 0] :=
  ⟨by with_unfolding_all rfl, by with_unfolding_all rfl, by with_unfolding_all rfl⟩

/-- Witness for claim C5: a rejected string stores 0 on add, the parseable
string Infinity stores the parsed non-finite value, a rejected update
leaves the document unchanged, and add always appends the coerced item. -/
theorem claim_C5_witness :
    (stored_add_item { id := "x1", name := "n", amount := Val.str "abc" }).amount = PF.fin 0 ∧
    (stored_add_item { id := "x2", name := "n", amount := Val.str "Infinity" }).amount = PF.inf ∧
    update_item exDoc Category.expenses "e1" UField.amount (Val.str "abc") =
      some { doc := exDoc, modified := false, success := true } ∧
    getCat (add_item exDoc Category.purchases exRaw).doc Category.purchases =
      getCat exDoc Category.purchases ++ [stored_add_item exRaw] := by
  have h1 := claim_C5 exDoc Category.expenses
    { id := "x1", name := "n", amount := Val.str "abc" } "e1" (Val.str "abc")
  have h2 := claim_C5 exDoc Category.purchases
    { id := "x2", name := "n", amount := Val.str "Infinity" } "e1" (Val.str "x")
  have h3 := claim_C5 exDoc Category.purchases exRaw "e1" (Val.str "abc")
  exact ⟨h1.2.1 ⟨FErr.valueError, by with_unfolding_all rfl⟩,
    h2.2.2.1 PF.inf (by with_unfolding_all rfl),
    h1.2.2.2 (by with_unfolding_all rfl),
    h3.1⟩

/-- Refutation for claim C6: an update request stores a negative amount on
a debt directly, with success reported, so debt amounts are not
nonnegative after every operation. -/
theorem claim_C6_counterexample :
    ((update_item exDoc Category.debts "dbt1" UField.amount (Val.pf (PF.fin (-5)))).map
      (fun r => r.doc.debts.map (fun it => it.amount))) = some [PF.fin (-5), PF.fin 5] ∧
    ((update_item exDoc Category.debts "dbt1" UField.amount (Val.pf (PF.fin (-5)))).map
      (fun r => r.success)) = some true ∧
    pyGe (PF.fin (-5)) (PF.fin 0) = false :=
  ⟨by with_unfolding_all rfl, by with_unfolding_all rfl, by with_unfolding_all rfl⟩

/-- Witness for claim C6 at the concrete document on 2025-01-31: both
debts are clamped, the clamped amounts are nonnegative, and the debt with
amount 5 below its payment 10 is clamped to exactly 0. -/
theorem claim_C6_witness :
    (debt_phase ⟨2025, 1, 31⟩ exDoc).1.debts = exDoc.debts.map
      (fun dbt => { dbt with amount := pyMax (PF.fin 0) (pySub dbt.amount dbt.monthlyPayment) }) ∧
    pyGe (pyMax (PF.fin 0) (pySub (PF.fin 5) (PF.fin 10))) (PF.fin 0) = true ∧
    pyMax (PF.fin 0) (pySub (PF.fin 5) (PF.fin 10)) = PF.fin 0 := by
  have h := claim_C6 2025 1 31 exDoc
    { id := "inc2", name := "Current Account Balance", amount := PF.fin 0 }
    (by with_unfolding_all rfl)
    ⟨by decide, of_decide_eq_true (by with_unfolding_all rfl)⟩
  refine ⟨h.1, ?_, ?_⟩
  · have := h.2.1
      { id := "dbt2", name := "Family",
        amount := pyMax (PF.fin 0) (pySub (PF.fin 5) (PF.fin 10)), monthlyPayment := PF.fin 10 }
      (of_decide_eq_true (by with_unfolding_all rfl))
    exact this
  · exact h.2.2
      { id := "dbt2", name := "Family", amount := PF.fin 5, monthlyPayment := PF.fin 10 }
      (of_decide_eq_true (by with_unfolding_all rfl)) (by with_unfolding_all rfl)

/-- Refutation for claim C7: the backend delete endpoint removes the
balance item inc2 from income and still reports success, and the update
endpoint renames it — no rejection happens server side. -/
theorem claim_C7_counterexample :
    (delete_item exDoc Category.income "inc2").doc.income.find?
      (fun it => it.id == "inc2") = none ∧
    (delete_item exDoc Category.income "inc2").success = true ∧
    ((update_item exDoc Category.income "inc2" UField.name (Val.str "Hacked")).map
      (fun r => r.doc.income.find? (fun it => it.id == "inc2"))) =
      some (some { id := "inc2", name := "Hacked", amount := PF.fin 0,
                   monthlyPayment := PF.fin 0, date := none }) :=
  ⟨by with_unfolding_all rfl, by with_unfolding_all rfl, by with_unfolding_all rfl⟩

/-- Witness for claim C7 at the concrete document: deleting inc2 leaves
income filtered of inc2 (the entry is gone) and reports success. -/
theorem claim_C7_witness :
    (delete_item exDoc Category.income "inc2").doc.income =
      exDoc.income.filter (fun it => !(it.id == "inc2")) ∧
    (delete_item exDoc Category.income "inc2").success = true := by
  have h := claim_C7 exDoc "Renamed"
    { id := "inc2", name := "Current Account Balance", amount := PF.fin 0 }
    (by with_unfolding_all rfl)
  exact ⟨h.1, h.2.1⟩

/-- Witness for claim C8 at the concrete document: adding a purchase of
amount 7 with a fresh id and deleting it restores the document exactly,
and likewise for a one-time inflow. -/
theorem claim_C8_witness :
    (delete_item (add_item exDoc Category.purchases { id := "p9", name := "Sofa", amount := Val.pf (PF.fin 7), monthlyPayment := PF.fin 0, date := some "2025-01-15" }).doc Category.purchases "p9").doc = exDoc ∧
    balanceAmount (delete_item (add_item exDoc Category.purchases { id := "p9", name := "Sofa", amount := Val.pf (PF.fin 7), monthlyPayment := PF.fin 0, date := some "2025-01-15" }).doc Category.purchases "p9").doc = balanceAmount exDoc ∧
    (delete_item (add_item exDoc Category.one_time_inflow { id := "p9", name := "Sofa", amount := Val.pf (PF.fin 7), monthlyPayment := PF.fin 0, date := some "2025-01-15" }).doc Category.one_time_inflow "p9").doc = exDoc := by
  have h := claim_C8 exDoc 7 "p9" "Sofa" (PF.fin 0) (some "2025-01-15")
  have hp := h.1 (by with_unfolding_all rfl)
  have hi := h.2 (by with_unfolding_all rfl)
  exact ⟨hp.1, hp.2, hi.1⟩

/-- Refutation for claim C9: an update and a delete for an id absent from
the category no-op silently and answer success true — no 404 and no
success false. -/
theorem claim_C9_counterexample :
    update_item exDoc Category.expenses "missing" UField.amount (Val.pf (PF.fin 1)) =
      some { doc := exDoc, modified := false, success := true } ∧
    delete_item exDoc Category.expenses "missing" =
      { doc := exDoc, modified := false, success := true } :=
  ⟨by with_unfolding_all rfl, by with_unfolding_all rfl⟩

/-- Witness for claim C9 at the concrete document with an id that is not
present: both operations leave the document unchanged, mark nothing
modified, and report success. -/
theorem claim_C9_witness :
    update_item exDoc Category.expenses "ghost" UField.amount (Val.pf (PF.fin 1)) =
      some { doc := exDoc, modified := false, success := true } ∧
    delete_item exDoc Category.expenses "ghost" =
      { doc := exDoc, modified := false, success := true } :=
  claim_C9 exDoc Category.expenses "ghost" UField.amount (Val.pf (PF.fin 1))
    (by with_unfolding_all rfl)

/-- Witness for claim C10 at the concrete document without inc2: a load
changes nothing, an instant add edits only its category, a delete leaves
income alone, and the totals report a zero balance. -/
theorem claim_C10_witness :
    check_and_update_balance ⟨2025, 1, 31⟩ exDocNoBal = (exDocNoBal, false) ∧
    (add_item exDocNoBal Category.purchases exRaw).doc.income = exDocNoBal.income ∧
    (add_item exDocNoBal Category.purchases exRaw).doc.metadata = exDocNoBal.metadata ∧
    getCat (add_item exDocNoBal Category.purchases exRaw).doc Category.purchases =
      getCat exDocNoBal Category.purchases ++ [stored_add_item exRaw] ∧
    (delete_item exDocNoBal Category.purchases "p9").doc.income = exDocNoBal.income ∧
    (calculate_totals ⟨2025, 1, 31⟩ exDocNoBal).currentBalance = PF.fin 0 := by
  have h := claim_C10 exDocNoBal (by with_unfolding_all rfl)
  have hadd := (h.2.1 Category.purchases (Or.inr rfl)).1 exRaw
  have hdel := (h.2.1 Category.purchases (Or.inr rfl)).2.2 "p9"
  exact ⟨h.1 _, hadd.1, hadd.2.1, hadd.2.2, hdel.1, h.2.2 _⟩
